import Mathlib

/-!
Shallow embedding of the SHADERed pipeline-cache reconciler and frame renderer
(src/Objects/RenderEngine.cpp) together with theorems checking the
natural-language specification against it.

Modelling conventions:
- A pipeline item is identified by its Data pointer; pointers are modelled as
  natural numbers.  Dereferencing a Data pointer as a pipe::ShaderPass is an
  environment function (the pipeline manager owns the payloads).
- Compiled shader objects (ml::VertexShader / ml::PixelShader) are modelled by
  a record carrying the allocation identity of the heap object, the bound
  input-signature pointer, the last source text loaded into it and the result
  of that compilation.  Allocation identities are drawn from a counter in the
  state; delete is modelled by appending the identity to a destruction log.
- Shader compilation, project-file loading and the message stack are external
  collaborators; compilation success and file contents are oracles in the
  environment.
- The C++ loops run over indices of vectors that they mutate; they are
  embedded as structural recursions (over the fixed external list, or over an
  explicit fuel argument that is initialised to the vector length, which
  bounds the number of iterations because no loop ever grows the list it
  iterates).  This keeps every definition computable by the kernel.
- In the move-detection loop the C++ reads items[i] where i ranges over the
  snapshot length; when the snapshot is longer than the external list this
  read is out of range (undefined behaviour).  The value produced by such a
  read is an oracle (oobItem) in the environment, so theorems about states
  that reach it hold for every possible outcome of the undefined read.
-/

namespace ed

/-- Severity levels of the message stack, mirroring MessageStack::Type.
Modelled from the spec: the diagnostics sink is an external collaborator
exposing add(severity, group, text) and clear(group). -/
inductive MsgType where
  | Error
  | Warning
  | Message
deriving DecidableEq

/-- One entry of the message stack. Modelled from the spec: the diagnostics
sink groups entries by item name. -/
structure Msg where
  mtype : MsgType
  group : String
  text : String
deriving DecidableEq

/-- MessageStack::Add: append one entry. Modelled from the spec. -/
def msgAdd (t : MsgType) (g s : String) (msgs : List Msg) : List Msg :=
  msgs ++ [⟨t, g, s⟩]

/-- MessageStack::ClearGroup: drop every entry of the given group, keeping all
other groups intact. Modelled from the spec: success clears any prior error
for that group. -/
def clearGroup (g : String) (msgs : List Msg) : List Msg :=
  msgs.filter (fun m => m.group ≠ g)

/-- PipelineItem::ItemType: the variants of the pipeline-item tagged union. -/
inductive ItemType where
  | ShaderPass
  | Geometry
  | BlendState
  | DepthStencilState
deriving DecidableEq

/-- pipe::GeometryItem payload: a topology selector and a drawable handle. -/
structure GeometryItem where
  Topology : Nat
  Geometry : Nat
deriving DecidableEq

/-- pipe::BlendState payload: an opaque GPU blend-state handle. -/
structure BlendStateData where
  State : Nat
deriving DecidableEq

/-- pipe::DepthStencilState payload: an opaque GPU depth-stencil-state handle
plus a stencil reference value. -/
structure DepthStencilStateData where
  State : Nat
  StencilReference : Nat
deriving DecidableEq

/-- A child item of a shader pass.  The C++ stores a type tag and a void
pointer that is reinterpret-cast according to the tag; the embedding carries
all three possible payloads so that the cast is total, and the tag selects
which payload the renderer reads. -/
structure ChildItem where
  itemType : ItemType
  geo : GeometryItem
  blend : BlendStateData
  depth : DepthStencilStateData
deriving DecidableEq

/-- pipe::ShaderPass payload: source paths, entry points, the input layout
(identified by the address of the VSInputLayout member and the number of its
input elements), the two per-stage slot-usage tables and the child items. -/
structure ShaderPass where
  VSPath : String
  PSPath : String
  VSEntry : String
  PSEntry : String
  VSInputElements : Nat
  VSLayoutId : Nat
  VSSlotUsed : Nat → Bool
  PSSlotUsed : Nat → Bool
  Items : List ChildItem

/-- A top-level pipeline item as the reconciler sees it: a display name and
the Data pointer, which is the identity token used for matching across
frames. -/
structure PipelineItem where
  Name : String
  Data : Nat
deriving DecidableEq

instance : Inhabited PipelineItem := ⟨⟨"", 0⟩⟩

/-- A compiled shader object (ml::VertexShader / ml::PixelShader): the
allocation identity of the heap object, the InputSignature pointer (none is
nullptr), the source text and entry point last passed to LoadFromMemory and
whether that compilation succeeded. -/
structure ShaderObj where
  objId : Nat
  InputSignature : Option Nat
  loaded : Option (String × String)
  compiledOk : Bool
deriving DecidableEq

instance : Inhabited ShaderObj := ⟨⟨0, none, none, false⟩⟩

/-- External collaborators of the render engine. -/
structure Env where
  /-- ProjectParser::LoadProjectFile: path to source text. -/
  LoadProjectFile : String → String
  /-- The shader backend: does LoadFromMemory succeed on this source text and
  entry point. -/
  compileOk : String → String → Bool
  /-- Dereference a Data pointer as a pipe::ShaderPass payload. -/
  payload : Nat → ShaderPass
  /-- The value produced by the out-of-range vector read items[i] in the
  move-detection loop (undefined behaviour in the C++). -/
  oobItem : Nat → PipelineItem

/-- The cache-related state of RenderEngine: the snapshot list m_items, the
two index-aligned shader-object lists m_vs and m_ps, an allocation counter
for new shader objects, the number of LoadFromMemory calls issued, the log of
destroyed shader-object identities, the message stack contents and the
elapsed time of m_cacheTimer since its last restart. -/
structure CacheState where
  m_items : List PipelineItem
  m_vs : List ShaderObj
  m_ps : List ShaderObj
  nextId : Nat
  compileCalls : Nat
  destroyed : List Nat
  msgs : List Msg
  elapsed : ℚ
deriving DecidableEq

/-- The full engine state: the cache plus the render-target bookkeeping of
RenderEngine::Render (m_lastSize and how many times m_rt and m_rtView were
created). -/
structure RenderEngineState where
  cache : CacheState
  m_lastSize : Int × Int
  rtCreates : Nat
  rtViewCreates : Nat
deriving DecidableEq

/-- RenderEngine::FlushCache: delete every object in m_vs, then every object
in m_ps, then clear all three sequences. -/
def FlushCache (s : CacheState) : CacheState :=
  { s with
    destroyed := s.destroyed ++ s.m_vs.map (·.objId) ++ s.m_ps.map (·.objId)
    m_vs := []
    m_ps := []
    m_items := [] }

/-- The body of the insertion branch of the reconciler (RenderEngine.cpp
lines 158-188): insert the external item into m_items at its external
position i, allocate a vertex and a pixel shader object, bind the input
layout to the vertex shader if the pass declares input elements, load both
sources through the project parser, compile both stages, report or clear the
diagnostics group of the item name, and insert both objects at position i. -/
def cacheInsertStep (env : Env) (e : PipelineItem) (i : Nat) (s : CacheState) : CacheState :=
  let data := env.payload e.Data
  let vsig : Option Nat := if 0 < data.VSInputElements then some data.VSLayoutId else none
  let vsContent := env.LoadProjectFile data.VSPath
  let psContent := env.LoadProjectFile data.PSPath
  let vsCompiled := env.compileOk vsContent data.VSEntry
  let psCompiled := env.compileOk psContent data.PSEntry
  let vShader : ShaderObj := ⟨s.nextId, vsig, some (vsContent, data.VSEntry), vsCompiled⟩
  let pShader : ShaderObj := ⟨s.nextId + 1, none, some (psContent, data.PSEntry), psCompiled⟩
  let msgs' :=
    if ¬vsCompiled ∨ ¬psCompiled then
      msgAdd MsgType.Error e.Name "Failed to compile the shader" s.msgs
    else
      clearGroup e.Name s.msgs
  { s with
    m_items := s.m_items.insertIdx i e
    m_vs := s.m_vs.insertIdx i vShader
    m_ps := s.m_ps.insertIdx i pShader
    nextId := s.nextId + 2
    compileCalls := s.compileCalls + 2
    msgs := msgs' }

/-- The insertion loop of the reconciler (RenderEngine.cpp lines 150-190):
walk the external list in order; i is the index of the head of pending in the
external list.  An item whose Data is already in the snapshot is skipped,
otherwise it is inserted and compiled at position i. -/
def insertLoop (env : Env) (i : Nat) (pending : List PipelineItem) (s : CacheState) : CacheState :=
  match pending with
  | [] => s
  | e :: rest =>
      if s.m_items.any (fun it => it.Data = e.Data) then
        insertLoop env (i + 1) rest s
      else
        insertLoop env (i + 1) rest (cacheInsertStep env e i s)

/-- The body of the removal branch of the reconciler (RenderEngine.cpp lines
201-208): delete the two shader objects at index i and erase index i from all
three sequences. -/
def cacheRemoveStep (i : Nat) (s : CacheState) : CacheState :=
  { s with
    destroyed := s.destroyed ++ [(s.m_vs.getD i default).objId, (s.m_ps.getD i default).objId]
    m_vs := s.m_vs.eraseIdx i
    m_ps := s.m_ps.eraseIdx i
    m_items := s.m_items.eraseIdx i }

/-- The removal loop of the reconciler (RenderEngine.cpp lines 193-209): for
increasing i, while i is below the current snapshot length, erase the entry
at i if its Data is absent from the external list.  Note that the C++ for
loop increments i even directly after an erase, so the element that shifts
into position i is not examined by this scan.  fuel bounds the number of
iterations; it is initialised to the snapshot length, which suffices because
i increases and the length never grows. -/
def removeLoop (ext : List PipelineItem) : Nat → Nat → CacheState → CacheState
  | 0, _, s => s
  | fuel + 1, i, s =>
      if i < s.m_items.length then
        if ext.any (fun e => e.Data = (s.m_items.getD i default).Data) then
          removeLoop ext fuel (i + 1) s
        else
          removeLoop ext fuel (i + 1) (cacheRemoveStep i s)
      else s

/-- The value of items[i] read by the move-detection loop: the external item
when i is in range, otherwise the oracle for the undefined out-of-range
read. -/
def extReadAt (env : Env) (ext : List PipelineItem) (i : Nat) : PipelineItem :=
  if h : i < ext.length then ext[i] else env.oobItem i

/-- One relocation of the move-detection branch (RenderEngine.cpp lines
218-231): erase index i from all three sequences and insert the external item
(and the saved shader objects) at the adjusted destination, which is j - 1
when j is greater than i and j otherwise. -/
def moveStep (tgt : PipelineItem) (i j : Nat) (s : CacheState) : CacheState :=
  let dest := if i < j then j - 1 else j
  let vsCopy := s.m_vs.getD i default
  let psCopy := s.m_ps.getD i default
  { s with
    m_items := (s.m_items.eraseIdx i).insertIdx dest tgt
    m_vs := (s.m_vs.eraseIdx i).insertIdx dest vsCopy
    m_ps := (s.m_ps.eraseIdx i).insertIdx dest psCopy }

/-- The inner loop of the move-detection branch (RenderEngine.cpp lines
216-232): scan the whole external list; whenever the external item at j has
the same Data as the current snapshot item at i, relocate.  The C++ has no
break, and it re-reads m_items[i] on every iteration, so the scan continues
against whatever item sits at i after a relocation; j is the index of the
head of rem in the external list. -/
def moveInner (i : Nat) : Nat → List PipelineItem → CacheState → CacheState
  | _, [], s => s
  | j, tgt :: rem, s =>
      if tgt.Data = (s.m_items.getD i default).Data then
        moveInner i (j + 1) rem (moveStep tgt i j s)
      else
        moveInner i (j + 1) rem s

/-- The outer loop of the move-detection branch (RenderEngine.cpp lines
212-234): for increasing i below the current snapshot length, when the item
read from the external list at i does not match the snapshot item at i, run
the inner relocation scan.  fuel is initialised to the snapshot length, which
bounds the iterations because relocations never grow the snapshot. -/
def moveLoop (env : Env) (ext : List PipelineItem) : Nat → Nat → CacheState → CacheState
  | 0, _, s => s
  | fuel + 1, i, s =>
      if i < s.m_items.length then
        if (extReadAt env ext i).Data = (s.m_items.getD i default).Data then
          moveLoop env ext fuel (i + 1) s
        else
          moveLoop env ext fuel (i + 1) (moveInner i 0 ext s)
      else s

/-- One full identity scan of the reconciler (RenderEngine.cpp lines
150-234): the insertion pass over the external list, then the removal pass
over the snapshot, then the move-detection pass. -/
def fullScan (env : Env) (ext : List PipelineItem) (s : CacheState) : CacheState :=
  let s1 := insertLoop env 0 ext s
  let s2 := removeLoop ext s1.m_items.length 0 s1
  moveLoop env ext s2.m_items.length 0 s2

/-- RenderEngine::m_cache (lines 137-235): when the external length equals
the snapshot length the full scan is skipped unless more than 0.5 time units
elapsed on m_cacheTimer, in which case the timer restarts and the scan runs;
when the lengths differ the scan always runs and the timer is not touched. -/
def m_cache (env : Env) (ext : List PipelineItem) (s : CacheState) : CacheState :=
  if s.m_items.length = ext.length then
    if (1 : ℚ) / 2 < s.elapsed then
      fullScan env ext { s with elapsed := 0 }
    else s
  else fullScan env ext s

/-- The body of RenderEngine::Recompile for one index i (lines 103-124): when
the item name matches, rebind or unbind the vertex-shader input signature
according to the number of declared input elements, reload both sources,
recompile both stages into the same two objects, and report or clear the
diagnostics group of the item name. -/
def recompileStep (env : Env) (name : String) (i : Nat) (s : CacheState) : CacheState :=
  let item := s.m_items.getD i default
  if item.Name = name then
    let shader := env.payload item.Data
    let vs0 := s.m_vs.getD i default
    let vs1 :=
      if 0 < shader.VSInputElements then
        { vs0 with InputSignature := some shader.VSLayoutId }
      else
        { vs0 with InputSignature := none }
    let vsContent := env.LoadProjectFile shader.VSPath
    let psContent := env.LoadProjectFile shader.PSPath
    let vsCompiled := env.compileOk vsContent shader.VSEntry
    let psCompiled := env.compileOk psContent shader.PSEntry
    let vs2 := { vs1 with loaded := some (vsContent, shader.VSEntry), compiledOk := vsCompiled }
    let ps0 := s.m_ps.getD i default
    let ps2 := { ps0 with loaded := some (psContent, shader.PSEntry), compiledOk := psCompiled }
    let msgs' :=
      if ¬vsCompiled ∨ ¬psCompiled then
        msgAdd MsgType.Error item.Name "Failed to compile the shader(s)" s.msgs
      else
        clearGroup item.Name s.msgs
    { s with
      m_vs := s.m_vs.set i vs2
      m_ps := s.m_ps.set i ps2
      compileCalls := s.compileCalls + 2
      msgs := msgs' }
  else s

/-- The loop of RenderEngine::Recompile (lines 102-125): apply the step to
every index below the snapshot length.  The step never changes m_items, so
fuel equal to the snapshot length suffices. -/
def recompileLoop (env : Env) (name : String) : Nat → Nat → CacheState → CacheState
  | 0, _, s => s
  | fuel + 1, i, s =>
      if i < s.m_items.length then
        recompileLoop env name fuel (i + 1) (recompileStep env name i s)
      else s

/-- RenderEngine::Recompile (lines 99-126). -/
def Recompile (env : Env) (name : String) (s : CacheState) : CacheState :=
  recompileLoop env name s.m_items.length 0 s

/-- The observable GPU and system-variable actions issued by
RenderEngine::Render, in program order. -/
inductive GpuEvent where
  | setViewportSizeVar (w h : Int)
  | bindRenderTexture
  | clearRenderTexture
  | clearDepthStencil
  | setViewport (w h : Int)
  | setInputLayout (layout : Nat)
  | bindVSSlot (slot : Nat)
  | bindPSSlot (slot : Nat)
  | bindVS (objId : Nat)
  | bindPS (objId : Nat)
  | bindDefaultState
  | setGeometryTransform (geo : Nat)
  | updateVSBuffers
  | updatePSBuffers
  | setTopology (t : Nat)
  | draw (geo : Nat)
  | bindBlendState (st : Nat)
  | bindDepthStencilState (st : Nat) (sref : Nat)
  | bindWindowTarget
deriving DecidableEq

/-- The per-child dispatch of the render loop (RenderEngine.cpp lines 72-93):
a Geometry child updates the per-draw transform system variable, flushes both
constant-buffer tables, sets the topology and draws; a BlendState child binds
its blend state; a DepthStencilState child binds its depth-stencil state with
its stencil reference; any other item type falls through the if chain and
produces no action at all. -/
def renderChild (c : ChildItem) : List GpuEvent :=
  if c.itemType = ItemType.Geometry then
    [GpuEvent.setGeometryTransform c.geo.Geometry,
     GpuEvent.updateVSBuffers,
     GpuEvent.updatePSBuffers,
     GpuEvent.setTopology c.geo.Topology,
     GpuEvent.draw c.geo.Geometry]
  else if c.itemType = ItemType.BlendState then
    [GpuEvent.bindBlendState c.blend.State]
  else if c.itemType = ItemType.DepthStencilState then
    [GpuEvent.bindDepthStencilState c.depth.State c.depth.StencilReference]
  else []

/-- The child loop of one shader pass (RenderEngine.cpp lines 72-93), in
order. -/
def renderChildren : List ChildItem → List GpuEvent
  | [] => []
  | c :: rest => renderChild c ++ renderChildren rest

/-- The number of constant-buffer slots iterated per stage
(CONSTANT_BUFFER_SLOTS); its numeric value lives in a header outside the
excerpt, so it is a parameter of the slot-binding model. -/
def slotBindEvents (slots : Nat) (data : ShaderPass) : List GpuEvent :=
  (List.range slots).flatMap fun j =>
    (if data.VSSlotUsed j then [GpuEvent.bindVSSlot j] else []) ++
    (if data.PSSlotUsed j then [GpuEvent.bindPSSlot j] else [])

/-- The events of one top-level pass iteration (RenderEngine.cpp lines
51-94): bind the input layout, bind every used variable slot of both stages,
bind the two cached shader objects, bind the default state, then run the
child loop. -/
def renderPass (env : Env) (slots : Nat) (it : PipelineItem) (vs ps : ShaderObj) :
    List GpuEvent :=
  let data := env.payload it.Data
  GpuEvent.setInputLayout data.VSLayoutId ::
    (slotBindEvents slots data ++
      (GpuEvent.bindVS vs.objId :: GpuEvent.bindPS ps.objId :: GpuEvent.bindDefaultState ::
        renderChildren data.Items))

/-- The top-level pass loop of RenderEngine::Render (lines 51-94): iterate
the synchronized snapshot and the two shader-object lists index-aligned. -/
def renderPasses (env : Env) (slots : Nat) (s : CacheState) : List GpuEvent :=
  (List.range s.m_items.length).flatMap fun i =>
    renderPass env slots (s.m_items.getD i default) (s.m_vs.getD i default)
      (s.m_ps.getD i default)

/-- RenderEngine::Render (lines 21-98): recreate the render target and its
view only when the requested size differs from m_lastSize (updating
m_lastSize), update the viewport-size system variable, reconcile the cache,
bind and clear the render target, set the viewport, run every pass, and
finally restore the window render target. -/
def Render (env : Env) (slots : Nat) (ext : List PipelineItem) (width height : Int)
    (s : RenderEngineState) : RenderEngineState × List GpuEvent :=
  let s1 :=
    if s.m_lastSize.1 ≠ width ∨ s.m_lastSize.2 ≠ height then
      { s with
        m_lastSize := (width, height)
        rtCreates := s.rtCreates + 1
        rtViewCreates := s.rtViewCreates + 1 }
    else s
  let cache' := m_cache env ext s1.cache
  let s2 := { s1 with cache := cache' }
  (s2,
    GpuEvent.setViewportSizeVar width height ::
      GpuEvent.bindRenderTexture ::
        GpuEvent.clearRenderTexture ::
          GpuEvent.clearDepthStencil ::
            GpuEvent.setViewport width height ::
              (renderPasses env slots cache' ++ [GpuEvent.bindWindowTarget]))

/-- The in-place result of Recompile on the vertex-shader object of a
matching item: same heap object (objId), input signature rebound from the
pass (bound when at least one input element is declared, unbound otherwise),
source reloaded through the project parser and recompiled.  A non-matching
item leaves the object untouched. -/
def recompiledVS (env : Env) (name : String) (item : PipelineItem) (vs0 : ShaderObj) :
    ShaderObj :=
  if item.Name = name then
    let shader := env.payload item.Data
    ⟨vs0.objId,
      if 0 < shader.VSInputElements then some shader.VSLayoutId else none,
      some (env.LoadProjectFile shader.VSPath, shader.VSEntry),
      env.compileOk (env.LoadProjectFile shader.VSPath) shader.VSEntry⟩
  else vs0

/-- The in-place result of Recompile on the pixel-shader object of a matching
item: same heap object, same input signature, source reloaded and
recompiled.  A non-matching item leaves the object untouched. -/
def recompiledPS (env : Env) (name : String) (item : PipelineItem) (ps0 : ShaderObj) :
    ShaderObj :=
  if item.Name = name then
    let shader := env.payload item.Data
    ⟨ps0.objId, ps0.InputSignature,
      some (env.LoadProjectFile shader.PSPath, shader.PSEntry),
      env.compileOk (env.LoadProjectFile shader.PSPath) shader.PSEntry⟩
  else ps0

/-- The structural cache invariant stated in the spec: the three cache
sequences have equal length, and no two cache entries share an identity. -/
def CacheInvariant (s : CacheState) : Prop :=
  s.m_vs.length = s.m_items.length ∧ s.m_ps.length = s.m_items.length ∧
    (s.m_items.map (·.Data)).Nodup

instance (s : CacheState) : Decidable (CacheInvariant s) := by
  unfold CacheInvariant; infer_instance

/-- A concrete shader pass used by closed witnesses and counterexamples. -/
def demoPass : ShaderPass :=
  ⟨"vs.hlsl", "ps.hlsl", "main", "main", 1, 77, fun _ => false, fun _ => false, []⟩

/-- A concrete environment whose compilation oracle and out-of-range-read
oracle are parameters. -/
def demoEnv (ok : String → String → Bool) (oob : Nat → PipelineItem) : Env :=
  ⟨fun _ => "source", ok, fun _ => demoPass, oob⟩

/-- Concrete pipeline items with the given identity tokens, each named by its
token. -/
def demoItems (datas : List Nat) : List PipelineItem :=
  datas.map fun d => ⟨toString d, d⟩

/-- A concrete cache state holding the given identities, with vertex-shader
object 100 + d and pixel-shader object 200 + d cached for identity d. -/
def demoCache (datas : List Nat) : CacheState :=
  { m_items := demoItems datas
    m_vs := datas.map fun d => ⟨100 + d, none, none, true⟩
    m_ps := datas.map fun d => ⟨200 + d, none, none, true⟩
    nextId := 1000
    compileCalls := 0
    destroyed := []
    msgs := []
    elapsed := 0 }

/-! General list lemmas used by the loop proofs. -/

theorem map_insertIdx (f : α → β) :
    ∀ (n : Nat) (a : α) (l : List α),
      (List.insertIdx n a l).map f = List.insertIdx n (f a) (l.map f)
  | 0, _, _ => rfl
  | _ + 1, _, [] => rfl
  | n + 1, a, b :: l => by
      simp [List.insertIdx_succ_cons, map_insertIdx f n a l]

theorem map_eraseIdx (f : α → β) :
    ∀ (l : List α) (i : Nat), (l.eraseIdx i).map f = (l.map f).eraseIdx i
  | [], _ => rfl
  | _ :: _, 0 => rfl
  | a :: l, i + 1 => by simp [map_eraseIdx f l i]

theorem length_insertIdx_eq (n : Nat) (a : α) (l : List α) :
    (List.insertIdx n a l).length = if n ≤ l.length then l.length + 1 else l.length := by
  by_cases h : n ≤ l.length
  · simp [List.length_insertIdx n l h, h]
  · rw [List.insertIdx_of_length_lt l a n (by omega)]
    simp [h]

theorem perm_cons_eraseIdx [DecidableEq α] {l : List α} {i : Nat} (h : i < l.length) :
    l.Perm (l[i] :: l.eraseIdx i) :=
  (List.perm_cons_erase (l.getElem_mem h)).trans ((List.erase_getElem h).cons l[i])

theorem nodup_insertIdx_of_not_mem {l : List α} (hn : l.Nodup) {a : α} (ha : a ∉ l)
    (n : Nat) : (List.insertIdx n a l).Nodup := by
  by_cases h : n ≤ l.length
  · exact ((List.perm_insertIdx a l h).nodup_iff).mpr (by simp [hn, ha])
  · rw [List.insertIdx_of_length_lt l a n (by omega)]
    exact hn

theorem mem_insertIdx_of_mem {l : List α} {a : α} (ha : a ∈ l) (n : Nat) (x : α) :
    a ∈ List.insertIdx n x l := by
  by_cases h : n ≤ l.length
  · exact (List.mem_insertIdx h).mpr (Or.inr ha)
  · rw [List.insertIdx_of_length_lt l x n (by omega)]
    exact ha

theorem mem_eraseIdx_of_ne [DecidableEq α] {l : List α} {i : Nat} (h : i < l.length)
    {a : α} (ha : a ∈ l) (hne : a ≠ l[i]) : a ∈ l.eraseIdx i := by
  have hmem := (perm_cons_eraseIdx h).mem_iff.mp ha
  simpa [hne] using hmem

theorem getD_eq_getElem_of_lt {l : List α} {i : Nat} (h : i < l.length) (d : α) :
    l.getD i d = l[i] :=
  List.getD_eq_getElem l d h

theorem insertIdx_append_length :
    ∀ (l₁ : List α) (a : α) (l₂ : List α),
      List.insertIdx l₁.length a (l₁ ++ l₂) = l₁ ++ a :: l₂
  | [], _, _ => rfl
  | b :: l₁, a, l₂ => by
      simpa [List.insertIdx_succ_cons] using congrArg (b :: ·) (insertIdx_append_length l₁ a l₂)

/-! Projection lemmas for the loop bodies. -/

@[simp] theorem cacheInsertStep_m_items (env : Env) (e : PipelineItem) (i : Nat)
    (s : CacheState) : (cacheInsertStep env e i s).m_items = s.m_items.insertIdx i e := rfl

@[simp] theorem cacheInsertStep_m_vs (env : Env) (e : PipelineItem) (i : Nat)
    (s : CacheState) :
    (cacheInsertStep env e i s).m_vs =
      s.m_vs.insertIdx i
        ⟨s.nextId,
          if 0 < (env.payload e.Data).VSInputElements then
            some (env.payload e.Data).VSLayoutId
          else none,
          some (env.LoadProjectFile (env.payload e.Data).VSPath, (env.payload e.Data).VSEntry),
          env.compileOk (env.LoadProjectFile (env.payload e.Data).VSPath)
            (env.payload e.Data).VSEntry⟩ := rfl

@[simp] theorem cacheInsertStep_m_ps (env : Env) (e : PipelineItem) (i : Nat)
    (s : CacheState) :
    (cacheInsertStep env e i s).m_ps =
      s.m_ps.insertIdx i
        ⟨s.nextId + 1, none,
          some (env.LoadProjectFile (env.payload e.Data).PSPath, (env.payload e.Data).PSEntry),
          env.compileOk (env.LoadProjectFile (env.payload e.Data).PSPath)
            (env.payload e.Data).PSEntry⟩ := rfl

@[simp] theorem cacheInsertStep_nextId (env : Env) (e : PipelineItem) (i : Nat)
    (s : CacheState) : (cacheInsertStep env e i s).nextId = s.nextId + 2 := rfl

@[simp] theorem cacheInsertStep_compileCalls (env : Env) (e : PipelineItem) (i : Nat)
    (s : CacheState) : (cacheInsertStep env e i s).compileCalls = s.compileCalls + 2 := rfl

@[simp] theorem cacheInsertStep_destroyed (env : Env) (e : PipelineItem) (i : Nat)
    (s : CacheState) : (cacheInsertStep env e i s).destroyed = s.destroyed := rfl

@[simp] theorem cacheInsertStep_elapsed (env : Env) (e : PipelineItem) (i : Nat)
    (s : CacheState) : (cacheInsertStep env e i s).elapsed = s.elapsed := rfl

theorem cacheInsertStep_msgs (env : Env) (e : PipelineItem) (i : Nat) (s : CacheState) :
    (cacheInsertStep env e i s).msgs =
      if ¬env.compileOk (env.LoadProjectFile (env.payload e.Data).VSPath)
            (env.payload e.Data).VSEntry ∨
          ¬env.compileOk (env.LoadProjectFile (env.payload e.Data).PSPath)
            (env.payload e.Data).PSEntry then
        msgAdd MsgType.Error e.Name "Failed to compile the shader" s.msgs
      else clearGroup e.Name s.msgs := rfl

@[simp] theorem cacheRemoveStep_m_items (i : Nat) (s : CacheState) :
    (cacheRemoveStep i s).m_items = s.m_items.eraseIdx i := rfl

@[simp] theorem cacheRemoveStep_m_vs (i : Nat) (s : CacheState) :
    (cacheRemoveStep i s).m_vs = s.m_vs.eraseIdx i := rfl

@[simp] theorem cacheRemoveStep_m_ps (i : Nat) (s : CacheState) :
    (cacheRemoveStep i s).m_ps = s.m_ps.eraseIdx i := rfl

@[simp] theorem cacheRemoveStep_destroyed (i : Nat) (s : CacheState) :
    (cacheRemoveStep i s).destroyed =
      s.destroyed ++ [(s.m_vs.getD i default).objId, (s.m_ps.getD i default).objId] := rfl

@[simp] theorem cacheRemoveStep_msgs (i : Nat) (s : CacheState) :
    (cacheRemoveStep i s).msgs = s.msgs := rfl

@[simp] theorem cacheRemoveStep_compileCalls (i : Nat) (s : CacheState) :
    (cacheRemoveStep i s).compileCalls = s.compileCalls := rfl

@[simp] theorem moveStep_m_items (tgt : PipelineItem) (i j : Nat) (s : CacheState) :
    (moveStep tgt i j s).m_items =
      (s.m_items.eraseIdx i).insertIdx (if i < j then j - 1 else j) tgt := rfl

@[simp] theorem moveStep_m_vs (tgt : PipelineItem) (i j : Nat) (s : CacheState) :
    (moveStep tgt i j s).m_vs =
      (s.m_vs.eraseIdx i).insertIdx (if i < j then j - 1 else j) (s.m_vs.getD i default) := rfl

@[simp] theorem moveStep_m_ps (tgt : PipelineItem) (i j : Nat) (s : CacheState) :
    (moveStep tgt i j s).m_ps =
      (s.m_ps.eraseIdx i).insertIdx (if i < j then j - 1 else j) (s.m_ps.getD i default) := rfl

@[simp] theorem moveStep_compileCalls (tgt : PipelineItem) (i j : Nat) (s : CacheState) :
    (moveStep tgt i j s).compileCalls = s.compileCalls := rfl

@[simp] theorem moveStep_destroyed (tgt : PipelineItem) (i j : Nat) (s : CacheState) :
    (moveStep tgt i j s).destroyed = s.destroyed := rfl

@[simp] theorem moveStep_msgs (tgt : PipelineItem) (i j : Nat) (s : CacheState) :
    (moveStep tgt i j s).msgs = s.msgs := rfl

@[simp] theorem moveStep_nextId (tgt : PipelineItem) (i j : Nat) (s : CacheState) :
    (moveStep tgt i j s).nextId = s.nextId := rfl

theorem recompileStep_m_items (env : Env) (name : String) (i : Nat) (s : CacheState) :
    (recompileStep env name i s).m_items = s.m_items := by
  simp only [recompileStep]
  split <;> simp

theorem recompileStep_m_vs_length (env : Env) (name : String) (i : Nat) (s : CacheState) :
    (recompileStep env name i s).m_vs.length = s.m_vs.length := by
  simp only [recompileStep]
  split <;> simp

theorem recompileStep_m_ps_length (env : Env) (name : String) (i : Nat) (s : CacheState) :
    (recompileStep env name i s).m_ps.length = s.m_ps.length := by
  simp only [recompileStep]
  split <;> simp

theorem recompileStep_destroyed (env : Env) (name : String) (i : Nat) (s : CacheState) :
    (recompileStep env name i s).destroyed = s.destroyed := by
  simp only [recompileStep]
  split <;> simp

theorem recompileStep_nextId (env : Env) (name : String) (i : Nat) (s : CacheState) :
    (recompileStep env name i s).nextId = s.nextId := by
  simp only [recompileStep]
  split <;> simp

/-! Loop lemmas for the reconciler. -/

theorem insertLoop_skip_all (env : Env) :
    ∀ (pending : List PipelineItem) (i : Nat) (s : CacheState),
      (∀ e ∈ pending, ∃ it ∈ s.m_items, it.Data = e.Data) →
      insertLoop env i pending s = s
  | [], _, _, _ => rfl
  | e :: rest, i, s, h => by
      have hfound : (s.m_items.any fun it => decide (it.Data = e.Data)) = true := by
        obtain ⟨it, hit, hd⟩ := h e (by simp)
        simp only [List.any_eq_true, decide_eq_true_eq]
        exact ⟨it, hit, hd⟩
      rw [insertLoop, if_pos hfound]
      exact insertLoop_skip_all env rest (i + 1) s fun x hx => h x (by simp [hx])

theorem insertLoop_append_skip (env : Env) :
    ∀ (l₁ l₂ : List PipelineItem) (i : Nat) (s : CacheState),
      (∀ e ∈ l₁, ∃ it ∈ s.m_items, it.Data = e.Data) →
      insertLoop env i (l₁ ++ l₂) s = insertLoop env (i + l₁.length) l₂ s
  | [], _, _, _, _ => by simp [insertLoop]
  | e :: l₁, l₂, i, s, h => by
      have hfound : (s.m_items.any fun it => decide (it.Data = e.Data)) = true := by
        obtain ⟨it, hit, hd⟩ := h e (by simp)
        simp only [List.any_eq_true, decide_eq_true_eq]
        exact ⟨it, hit, hd⟩
      rw [List.cons_append, insertLoop, if_pos hfound,
        insertLoop_append_skip env l₁ l₂ (i + 1) s fun x hx => h x (by simp [hx])]
      have harith : i + 1 + l₁.length = i + (e :: l₁).length := by
        simp only [List.length_cons]
        omega
      rw [harith]

theorem removeLoop_noop (ext : List PipelineItem) :
    ∀ (fuel i : Nat) (s : CacheState),
      (∀ it ∈ s.m_items, ∃ e ∈ ext, e.Data = it.Data) →
      removeLoop ext fuel i s = s
  | 0, _, _, _ => rfl
  | fuel + 1, i, s, h => by
      by_cases hi : i < s.m_items.length
      · have hmem : s.m_items.getD i default ∈ s.m_items := by
          rw [getD_eq_getElem_of_lt hi]
          exact s.m_items.getElem_mem hi
        obtain ⟨e, he, hd⟩ := h _ hmem
        have hfound :
            (ext.any fun e => decide (e.Data = (s.m_items.getD i default).Data)) = true := by
          simp only [List.any_eq_true, decide_eq_true_eq]
          exact ⟨e, he, hd⟩
        rw [removeLoop, if_pos hi, if_pos hfound]
        exact removeLoop_noop ext fuel (i + 1) s h
      · rw [removeLoop, if_neg hi]

theorem moveLoop_noop (env : Env) (ext : List PipelineItem) :
    ∀ (fuel i : Nat) (s : CacheState),
      (∀ k, k < s.m_items.length →
        (extReadAt env ext k).Data = (s.m_items.getD k default).Data) →
      moveLoop env ext fuel i s = s
  | 0, _, _, _ => rfl
  | fuel + 1, i, s, h => by
      by_cases hi : i < s.m_items.length
      · rw [moveLoop, if_pos hi, if_pos (h i hi)]
        exact moveLoop_noop env ext fuel (i + 1) s h
      · rw [moveLoop, if_neg hi]

/-- C9: FlushCache destroys every compiled shader object in both the vertex
and pixel sequences and leaves all three cache sequences empty; on an
already-empty cache it destroys nothing and leaves the state unchanged, and
flushing twice equals flushing once. -/
theorem flushCache_correct (s : CacheState) :
    (FlushCache s).m_items = [] ∧ (FlushCache s).m_vs = [] ∧ (FlushCache s).m_ps = [] ∧
      (FlushCache s).destroyed =
        s.destroyed ++ s.m_vs.map (·.objId) ++ s.m_ps.map (·.objId) ∧
      FlushCache (FlushCache s) = FlushCache s ∧
      (s.m_items = [] → s.m_vs = [] → s.m_ps = [] → FlushCache s = s) := by
  refine ⟨rfl, rfl, rfl, rfl, by simp [FlushCache], ?_⟩
  intro h1 h2 h3
  cases s
  simp_all [FlushCache]

/-- Closed instance of flushCache_correct: flushing the empty cache is the
identity. -/
theorem flushCache_correct_witness : FlushCache (demoCache []) = demoCache [] :=
  (flushCache_correct (demoCache [])).2.2.2.2.2 rfl rfl rfl

/-- C10: a child item of a shader pass whose type is not Geometry, BlendState
or DepthStencilState is skipped by the frame renderer: it produces no draw
call, no state binding and no system-variable or constant-buffer update, and
the child loop continues with the next child in order. -/
theorem render_skips_unknown_child (c : ChildItem) (rest : List ChildItem)
    (h1 : c.itemType ≠ ItemType.Geometry) (h2 : c.itemType ≠ ItemType.BlendState)
    (h3 : c.itemType ≠ ItemType.DepthStencilState) :
    renderChild c = [] ∧ renderChildren (c :: rest) = renderChildren rest := by
  have hc : renderChild c = [] := by simp [renderChild, h1, h2, h3]
  exact ⟨hc, by simp [renderChildren, hc]⟩

/-- Closed instance of render_skips_unknown_child: a ShaderPass-typed child
is skipped and the following Geometry child still renders. -/
theorem render_skips_unknown_child_witness :
    (ChildItem.mk ItemType.ShaderPass ⟨0, 0⟩ ⟨0⟩ ⟨0, 0⟩).itemType ≠ ItemType.Geometry ∧
      renderChild (ChildItem.mk ItemType.ShaderPass ⟨0, 0⟩ ⟨0⟩ ⟨0, 0⟩) = [] ∧
      renderChildren
          [ChildItem.mk ItemType.ShaderPass ⟨0, 0⟩ ⟨0⟩ ⟨0, 0⟩,
            ChildItem.mk ItemType.Geometry ⟨5, 7⟩ ⟨0⟩ ⟨0, 0⟩] =
        renderChildren [ChildItem.mk ItemType.Geometry ⟨5, 7⟩ ⟨0⟩ ⟨0, 0⟩] :=
  ⟨by decide,
    render_skips_unknown_child (ChildItem.mk ItemType.ShaderPass ⟨0, 0⟩ ⟨0⟩ ⟨0, 0⟩)
      [ChildItem.mk ItemType.Geometry ⟨5, 7⟩ ⟨0⟩ ⟨0, 0⟩] (by decide) (by decide) (by decide)⟩

/-- C4: when the external length equals the snapshot length and less than 0.5
time units have elapsed on the throttle timer, the reconciler returns with the
state unchanged (no cache mutation, no compilation call); once more than 0.5
time units elapsed, the timer resets and a full scan runs anyway. -/
theorem cache_throttle (env : Env) (ext : List PipelineItem) (s : CacheState)
    (hlen : s.m_items.length = ext.length) :
    (s.elapsed < 1 / 2 →
      m_cache env ext s = s ∧ (m_cache env ext s).compileCalls = s.compileCalls) ∧
      ((1 : ℚ) / 2 < s.elapsed →
        m_cache env ext s = fullScan env ext { s with elapsed := 0 }) := by
  constructor
  · intro hlt
    have hskip : m_cache env ext s = s := by
      rw [m_cache, if_pos hlen, if_neg (not_lt.mpr hlt.le)]
    exact ⟨hskip, by rw [hskip]⟩
  · intro hgt
    rw [m_cache, if_pos hlen, if_pos hgt]

/-- Closed instance of cache_throttle: with equal lengths and zero elapsed
time the reconciler is the identity. -/
theorem cache_throttle_witness :
    (demoCache [1]).m_items.length = (demoItems [1]).length ∧
      (demoCache [1]).elapsed < 1 / 2 ∧
      m_cache (demoEnv (fun _ _ => true) (fun _ => default)) (demoItems [1]) (demoCache [1]) =
        demoCache [1] :=
  ⟨rfl, by norm_num [demoCache],
    ((cache_throttle (demoEnv (fun _ _ => true) (fun _ => default)) (demoItems [1])
          (demoCache [1]) rfl).1
        (by norm_num [demoCache])).1⟩

/-- C7: two consecutive frame renders with identical width and height do not
recreate the render-target texture or view and keep the stored last size; a
render whose size differs from the stored last size recreates both exactly
once and stores the new size; a render whose size matches the stored last
size recreates nothing. -/
theorem render_target_recreation (env : Env) (slots : Nat) (ext : List PipelineItem)
    (w h : Int) (s : RenderEngineState) :
    (((Render env slots ext w h (Render env slots ext w h s).1).1).rtCreates =
          ((Render env slots ext w h s).1).rtCreates ∧
        ((Render env slots ext w h (Render env slots ext w h s).1).1).rtViewCreates =
          ((Render env slots ext w h s).1).rtViewCreates ∧
        ((Render env slots ext w h (Render env slots ext w h s).1).1).m_lastSize =
          ((Render env slots ext w h s).1).m_lastSize) ∧
      (s.m_lastSize ≠ (w, h) →
        ((Render env slots ext w h s).1).rtCreates = s.rtCreates + 1 ∧
          ((Render env slots ext w h s).1).rtViewCreates = s.rtViewCreates + 1 ∧
          ((Render env slots ext w h s).1).m_lastSize = (w, h)) ∧
      (s.m_lastSize = (w, h) →
        ((Render env slots ext w h s).1).rtCreates = s.rtCreates ∧
          ((Render env slots ext w h s).1).m_lastSize = s.m_lastSize) := by
  have hsize : ∀ t : RenderEngineState,
      ((Render env slots ext w h t).1).m_lastSize = (w, h) ∨
        (t.m_lastSize = (w, h) ∧ (Render env slots ext w h t).1 =
          { t with cache := m_cache env ext t.cache }) := by
    intro t
    by_cases hc : t.m_lastSize.1 ≠ w ∨ t.m_lastSize.2 ≠ h
    · left
      simp [Render, hc]
    · right
      push_neg at hc
      have ht : t.m_lastSize = (w, h) := Prod.ext hc.1 hc.2
      constructor
      · exact ht
      · simp [Render, ht]
  constructor
  · -- second render at the same size never takes the recreation branch
    set s1 := (Render env slots ext w h s).1 with hs1
    have h1 : s1.m_lastSize = (w, h) := by
      rcases hsize s with hl | ⟨hm, he⟩
      · exact hl
      · rw [hs1, he]; exact hm
    have hcond : ¬(s1.m_lastSize.1 ≠ w ∨ s1.m_lastSize.2 ≠ h) := by
      rw [h1]; simp
    refine ⟨?_, ?_, ?_⟩ <;> simp [Render, hcond]
  · constructor
    · intro hne
      have hc : s.m_lastSize.1 ≠ w ∨ s.m_lastSize.2 ≠ h := by
        by_contra hcon
        push_neg at hcon
        exact hne (Prod.ext hcon.1 hcon.2)
      refine ⟨?_, ?_, ?_⟩ <;> simp [Render, hc]
    · intro heq
      have hcond : ¬(s.m_lastSize.1 ≠ w ∨ s.m_lastSize.2 ≠ h) := by
        rw [heq]; simp
      exact ⟨by simp [Render, hcond], by simp [Render, hcond]⟩

/-- Closed instance of render_target_recreation: rendering at 10 x 5 from
last size (0, 0) recreates the render target exactly once and stores the new
size. -/
theorem render_target_recreation_witness :
    ((⟨demoCache [], (0, 0), 0, 0⟩ : RenderEngineState).m_lastSize ≠ ((10 : Int), (5 : Int))) ∧
      (((Render (demoEnv (fun _ _ => true) (fun _ => default)) 4 [] 10 5
              ⟨demoCache [], (0, 0), 0, 0⟩).1).rtCreates = 0 + 1 ∧
        ((Render (demoEnv (fun _ _ => true) (fun _ => default)) 4 [] 10 5
              ⟨demoCache [], (0, 0), 0, 0⟩).1).rtViewCreates = 0 + 1 ∧
        ((Render (demoEnv (fun _ _ => true) (fun _ => default)) 4 [] 10 5
              ⟨demoCache [], (0, 0), 0, 0⟩).1).m_lastSize = (10, 5)) :=
  ⟨by decide,
    (render_target_recreation (demoEnv (fun _ _ => true) (fun _ => default)) 4 [] 10 5
          ⟨demoCache [], (0, 0), 0, 0⟩).2.1 (by decide)⟩


/-- C1: a reconciliation full scan on an external list that adds exactly one
new identity at some position inserts that item into the snapshot at its
external position, compiles both shader objects synchronously (two compile
calls, diagnostics reported or cleared for its name), and inserts the two
resulting cache entries at the same position, leaving every pre-existing
entry and its shader objects unchanged and destroying nothing. -/
theorem cache_single_insertion (env : Env) (x : PipelineItem)
    (pre suf : List PipelineItem) (vpre vsuf ppre psuf : List ShaderObj) (s : CacheState)
    (hitems : s.m_items = pre ++ suf)
    (hvs : s.m_vs = vpre ++ vsuf) (hps : s.m_ps = ppre ++ psuf)
    (hvlen : vpre.length = pre.length) (hplen : ppre.length = pre.length)
    (hnew : ∀ it ∈ s.m_items, it.Data ≠ x.Data) :
    fullScan env (pre ++ x :: suf) s =
      { s with
        m_items := pre ++ x :: suf
        m_vs := vpre ++
          ⟨s.nextId,
            if 0 < (env.payload x.Data).VSInputElements then
              some (env.payload x.Data).VSLayoutId else none,
            some (env.LoadProjectFile (env.payload x.Data).VSPath,
              (env.payload x.Data).VSEntry),
            env.compileOk (env.LoadProjectFile (env.payload x.Data).VSPath)
              (env.payload x.Data).VSEntry⟩ :: vsuf
        m_ps := ppre ++
          ⟨s.nextId + 1, none,
            some (env.LoadProjectFile (env.payload x.Data).PSPath,
              (env.payload x.Data).PSEntry),
            env.compileOk (env.LoadProjectFile (env.payload x.Data).PSPath)
              (env.payload x.Data).PSEntry⟩ :: psuf
        nextId := s.nextId + 2
        compileCalls := s.compileCalls + 2
        msgs :=
          if ¬env.compileOk (env.LoadProjectFile (env.payload x.Data).VSPath)
                (env.payload x.Data).VSEntry ∨
              ¬env.compileOk (env.LoadProjectFile (env.payload x.Data).PSPath)
                (env.payload x.Data).PSEntry then
            msgAdd MsgType.Error x.Name "Failed to compile the shader" s.msgs
          else clearGroup x.Name s.msgs } := by
  have hnotfound : (s.m_items.any fun it => decide (it.Data = x.Data)) = false := by
    simp only [List.any_eq_false, decide_eq_true_eq]
    exact hnew
  have hpre : ∀ e ∈ pre, ∃ it ∈ s.m_items, it.Data = e.Data := fun e he =>
    ⟨e, by rw [hitems]; exact List.mem_append_left _ he, rfl⟩
  have hs1items : (cacheInsertStep env x pre.length s).m_items = pre ++ x :: suf := by
    rw [cacheInsertStep_m_items, hitems, insertIdx_append_length]
  have hins : insertLoop env 0 (pre ++ x :: suf) s = cacheInsertStep env x pre.length s := by
    rw [insertLoop_append_skip env pre (x :: suf) 0 s hpre, zero_add, insertLoop,
      if_neg (by simp [hnotfound])]
    exact insertLoop_skip_all env suf (pre.length + 1) _ fun e he =>
      ⟨e, by rw [hs1items]; exact List.mem_append_right _ (List.mem_cons_of_mem _ he), rfl⟩
  have hrem : ∀ fuel, removeLoop (pre ++ x :: suf) fuel 0 (cacheInsertStep env x pre.length s) =
      cacheInsertStep env x pre.length s := fun fuel =>
    removeLoop_noop _ fuel 0 _ fun it hit => ⟨it, by rw [← hs1items]; exact hit, rfl⟩
  have hmove : ∀ fuel, moveLoop env (pre ++ x :: suf) fuel 0 (cacheInsertStep env x pre.length s) =
      cacheInsertStep env x pre.length s := fun fuel => by
    apply moveLoop_noop
    intro k hk
    have hk2 : k < (pre ++ x :: suf).length := by rw [← hs1items]; exact hk
    rw [extReadAt, dif_pos hk2, getD_eq_getElem_of_lt hk]
    simp only [hs1items]
  have hchain : fullScan env (pre ++ x :: suf) s = cacheInsertStep env x pre.length s := by
    rw [fullScan]
    rw [hins, hrem, hmove]
  rw [hchain]
  show cacheInsertStep env x pre.length s = _
  simp only [cacheInsertStep]
  congr 1
  · rw [hvs, ← hvlen, insertIdx_append_length]
  · rw [hps, ← hplen, insertIdx_append_length]

/-- Closed instance of cache_single_insertion: inserting identity 9 between
cached identities 1 and 2 produces exactly one new pair of compiled entries
at index 1 and leaves the old shader objects untouched. -/
theorem cache_single_insertion_witness :
    (∀ it ∈ (demoCache [1, 2]).m_items, it.Data ≠ (⟨"9", 9⟩ : PipelineItem).Data) ∧
      fullScan (demoEnv (fun _ _ => true) (fun _ => default))
          (demoItems [1] ++ ⟨"9", 9⟩ :: demoItems [2]) (demoCache [1, 2]) =
        ⟨[⟨"1", 1⟩, ⟨"9", 9⟩, ⟨"2", 2⟩],
          [⟨101, none, none, true⟩, ⟨1000, some 77, some ("source", "main"), true⟩,
            ⟨102, none, none, true⟩],
          [⟨201, none, none, true⟩, ⟨1001, none, some ("source", "main"), true⟩,
            ⟨202, none, none, true⟩],
          1002, 2, [], [], 0⟩ :=
  ⟨by decide,
    (cache_single_insertion (demoEnv (fun _ _ => true) (fun _ => default)) ⟨"9", 9⟩
        (demoItems [1]) (demoItems [2]) [⟨101, none, none, true⟩] [⟨102, none, none, true⟩]
        [⟨201, none, none, true⟩] [⟨202, none, none, true⟩] (demoCache [1, 2])
        rfl rfl rfl rfl rfl (by decide)).trans (by decide)⟩


/-- C2 failing input: snapshot caches identities 1, 2, 3 (with shader objects
101/201, 102/202, 103/203) and the external list keeps only identity 3, so
the two adjacent snapshot items 1 and 2 must both be removed.  The removal
loop erases index 0 and then increments its index past the item that shifted
into position 0, so identity 2 survives the scan with its shader objects
undestroyed, contradicting the claim that no absent identity remains.  The
statement quantifies over every possible value of the out-of-range external
read that the subsequent move loop performs, so it holds for every outcome of
that undefined behaviour. -/
theorem cache_removal_adjacent_skipped (f : Nat → PipelineItem) :
    (⟨"2", 2⟩ : PipelineItem) ∈
        (fullScan (demoEnv (fun _ _ => true) f) (demoItems [3])
          (demoCache [1, 2, 3])).m_items ∧
      (∀ e ∈ demoItems [3], e.Data ≠ 2) ∧
      (fullScan (demoEnv (fun _ _ => true) f) (demoItems [3])
            (demoCache [1, 2, 3])).destroyed = [101, 201] ∧
      102 ∈ ((fullScan (demoEnv (fun _ _ => true) f) (demoItems [3])
          (demoCache [1, 2, 3])).m_vs.map (·.objId)) := by
  have h1 : fullScan (demoEnv (fun _ _ => true) f) (demoItems [3]) (demoCache [1, 2, 3]) =
      moveLoop (demoEnv (fun _ _ => true) f) (demoItems [3]) 1 1
        ⟨[⟨"2", 2⟩, ⟨"3", 3⟩], [⟨102, none, none, true⟩, ⟨103, none, none, true⟩],
          [⟨202, none, none, true⟩, ⟨203, none, none, true⟩], 1000, 0, [101, 201], [], 0⟩ := rfl
  by_cases h : (f 1).Data = 3
  · have h2 : moveLoop (demoEnv (fun _ _ => true) f) (demoItems [3]) 1 1
        ⟨[⟨"2", 2⟩, ⟨"3", 3⟩], [⟨102, none, none, true⟩, ⟨103, none, none, true⟩],
          [⟨202, none, none, true⟩, ⟨203, none, none, true⟩], 1000, 0, [101, 201], [], 0⟩ =
        ⟨[⟨"2", 2⟩, ⟨"3", 3⟩], [⟨102, none, none, true⟩, ⟨103, none, none, true⟩],
          [⟨202, none, none, true⟩, ⟨203, none, none, true⟩], 1000, 0, [101, 201], [], 0⟩ := by
      rw [moveLoop]
      split
      · split
        · rfl
        · next h2 => exact absurd h h2
      · rfl
    rw [h1, h2]
    refine ⟨by decide, by decide, by decide, by decide⟩
  · have h2 : moveLoop (demoEnv (fun _ _ => true) f) (demoItems [3]) 1 1
        ⟨[⟨"2", 2⟩, ⟨"3", 3⟩], [⟨102, none, none, true⟩, ⟨103, none, none, true⟩],
          [⟨202, none, none, true⟩, ⟨203, none, none, true⟩], 1000, 0, [101, 201], [], 0⟩ =
        ⟨[⟨"3", 3⟩, ⟨"2", 2⟩], [⟨103, none, none, true⟩, ⟨102, none, none, true⟩],
          [⟨203, none, none, true⟩, ⟨202, none, none, true⟩], 1000, 0, [101, 201], [], 0⟩ := by
      rw [moveLoop]
      split
      · split
        · next h2 => exact absurd h2 h
        · rfl
      · next h1 => exact absurd (by decide) h1
    rw [h1, h2]
    refine ⟨by decide, by decide, by decide, by decide⟩

/-- C3 failing input: the cache holds identities 1, 2, 3, 4 in order and the
external list is the pure reorder 3, 1, 4, 2.  One full scan destroys and
compiles nothing and moves the shader objects together with their items, but
the resulting snapshot order is 1, 3, 4, 2, which does not match the external
order, contradicting the claim that one full scan realigns the snapshot with
the external list. -/
theorem cache_reorder_misaligned :
    (fullScan (demoEnv (fun _ _ => true) (fun _ => default)) (demoItems [3, 1, 4, 2])
          (demoCache [1, 2, 3, 4])).m_items.map (·.Data) = [1, 3, 4, 2] ∧
      [1, 3, 4, 2] ≠ (demoItems [3, 1, 4, 2]).map (·.Data) ∧
      (fullScan (demoEnv (fun _ _ => true) (fun _ => default)) (demoItems [3, 1, 4, 2])
          (demoCache [1, 2, 3, 4])).compileCalls = 0 ∧
      (fullScan (demoEnv (fun _ _ => true) (fun _ => default)) (demoItems [3, 1, 4, 2])
          (demoCache [1, 2, 3, 4])).destroyed = [] ∧
      (fullScan (demoEnv (fun _ _ => true) (fun _ => default)) (demoItems [3, 1, 4, 2])
          (demoCache [1, 2, 3, 4])).m_vs.map (·.objId) = [101, 103, 104, 102] ∧
      (fullScan (demoEnv (fun _ _ => true) (fun _ => default)) (demoItems [3, 1, 4, 2])
          (demoCache [1, 2, 3, 4])).m_ps.map (·.objId) = [201, 203, 204, 202] := by
  decide


/-! Message-stack filter lemmas. -/

theorem msgAdd_filter_other (t : MsgType) (name text g : String) (hg : g ≠ name)
    (msgs : List Msg) :
    (msgAdd t name text msgs).filter (fun m => m.group = g) =
      msgs.filter (fun m => m.group = g) := by
  simp [msgAdd, List.filter_append, Ne.symm hg]

theorem clearGroup_filter_other (name g : String) (hg : g ≠ name) (msgs : List Msg) :
    (clearGroup name msgs).filter (fun m => m.group = g) =
      msgs.filter (fun m => m.group = g) := by
  rw [clearGroup, List.filter_filter]
  apply List.filter_congr
  intro m _
  by_cases hm : m.group = g
  · simp [hm, hg]
  · simp [hm]

theorem recompileStep_msgs_of_match (env : Env) (name : String) (i : Nat) (s : CacheState)
    (hmatch : (s.m_items.getD i default).Name = name) :
    (recompileStep env name i s).msgs =
      if ¬(env.compileOk (env.LoadProjectFile (env.payload (s.m_items.getD i default).Data).VSPath)
            (env.payload (s.m_items.getD i default).Data).VSEntry = true) ∨
          ¬(env.compileOk (env.LoadProjectFile (env.payload (s.m_items.getD i default).Data).PSPath)
            (env.payload (s.m_items.getD i default).Data).PSEntry = true) then
        msgAdd MsgType.Error name "Failed to compile the shader(s)" s.msgs
      else clearGroup name s.msgs := by
  simp only [recompileStep]
  rw [if_pos hmatch, hmatch]

/-- C6: for every compile attempt — the insertion step of a reconciliation
scan and the per-index step of recompile-by-name on a matching item — an
error diagnostic grouped by the item name is appended exactly when at least
one of the two stages fails to compile; when both stages succeed the
diagnostics group of that name is cleared; and the entries of every other
group are preserved by the attempt in all cases. -/
theorem compile_diagnostics (env : Env) (e : PipelineItem) (i : Nat) (s : CacheState)
    (name : String) (hmatch : (s.m_items.getD i default).Name = name) :
    ((¬(env.compileOk (env.LoadProjectFile (env.payload e.Data).VSPath)
            (env.payload e.Data).VSEntry = true) ∨
          ¬(env.compileOk (env.LoadProjectFile (env.payload e.Data).PSPath)
            (env.payload e.Data).PSEntry = true) →
        (cacheInsertStep env e i s).msgs =
          msgAdd MsgType.Error e.Name "Failed to compile the shader" s.msgs) ∧
      (env.compileOk (env.LoadProjectFile (env.payload e.Data).VSPath)
            (env.payload e.Data).VSEntry = true ∧
          env.compileOk (env.LoadProjectFile (env.payload e.Data).PSPath)
            (env.payload e.Data).PSEntry = true →
        (cacheInsertStep env e i s).msgs = clearGroup e.Name s.msgs) ∧
      (∀ g, g ≠ e.Name →
        (cacheInsertStep env e i s).msgs.filter (fun m => m.group = g) =
          s.msgs.filter (fun m => m.group = g))) ∧
    ((¬(env.compileOk (env.LoadProjectFile (env.payload (s.m_items.getD i default).Data).VSPath)
            (env.payload (s.m_items.getD i default).Data).VSEntry = true) ∨
          ¬(env.compileOk
              (env.LoadProjectFile (env.payload (s.m_items.getD i default).Data).PSPath)
            (env.payload (s.m_items.getD i default).Data).PSEntry = true) →
        (recompileStep env name i s).msgs =
          msgAdd MsgType.Error name "Failed to compile the shader(s)" s.msgs) ∧
      (env.compileOk (env.LoadProjectFile (env.payload (s.m_items.getD i default).Data).VSPath)
            (env.payload (s.m_items.getD i default).Data).VSEntry = true ∧
          env.compileOk (env.LoadProjectFile (env.payload (s.m_items.getD i default).Data).PSPath)
            (env.payload (s.m_items.getD i default).Data).PSEntry = true →
        (recompileStep env name i s).msgs = clearGroup name s.msgs) ∧
      (∀ g, g ≠ name →
        (recompileStep env name i s).msgs.filter (fun m => m.group = g) =
          s.msgs.filter (fun m => m.group = g))) := by
  refine ⟨⟨?_, ?_, ?_⟩, ?_, ?_, ?_⟩
  · intro hfail
    rw [cacheInsertStep_msgs, if_pos hfail]
  · intro hok
    rw [cacheInsertStep_msgs, if_neg (by simp [hok.1, hok.2])]
  · intro g hg
    rw [cacheInsertStep_msgs]
    split
    · exact msgAdd_filter_other _ _ _ _ hg s.msgs
    · exact clearGroup_filter_other _ _ hg s.msgs
  · intro hfail
    rw [recompileStep_msgs_of_match env name i s hmatch, if_pos hfail]
  · intro hok
    rw [recompileStep_msgs_of_match env name i s hmatch,
      if_neg (by simp only [not_or, not_not]; exact hok)]
  · intro g hg
    rw [recompileStep_msgs_of_match env name i s hmatch]
    split
    · exact msgAdd_filter_other _ _ _ _ hg s.msgs
    · exact clearGroup_filter_other _ _ hg s.msgs

/-- Closed instance of compile_diagnostics: with a failing compiler the
insertion attempt for item 7 appends exactly the grouped error entry, and the
recompile attempt for the cached item named 1 appends its grouped error
entry; pre-existing entries of another group survive a successful recompile
of the item named 1. -/
theorem compile_diagnostics_witness :
    (((demoCache [1]).m_items.getD 0 default).Name = "1") ∧
      (cacheInsertStep (demoEnv (fun _ _ => false) (fun _ => default)) ⟨"7", 7⟩ 0
          (demoCache [1])).msgs =
        [⟨MsgType.Error, "7", "Failed to compile the shader"⟩] ∧
      (recompileStep (demoEnv (fun _ _ => false) (fun _ => default)) "1" 0
          (demoCache [1])).msgs =
        [⟨MsgType.Error, "1", "Failed to compile the shader(s)"⟩] :=
  ⟨rfl,
    ((compile_diagnostics (demoEnv (fun _ _ => false) (fun _ => default)) ⟨"7", 7⟩ 0
            (demoCache [1]) "1" rfl).1.1 (by decide)).trans (by decide),
    ((compile_diagnostics (demoEnv (fun _ _ => false) (fun _ => default)) ⟨"7", 7⟩ 0
            (demoCache [1]) "1" rfl).2.1 (by decide)).trans (by decide)⟩


/-! Recompile loop characterization. -/

theorem getD_set_ne {α : Type _} {l : List α} {i k : Nat} (h : i ≠ k) (a d : α) :
    (l.set i a).getD k d = l.getD k d := by
  rw [List.getD_eq_getElem?_getD, List.getD_eq_getElem?_getD, List.getElem?_set_ne h]

theorem getD_set_self {α : Type _} {l : List α} {i : Nat} (h : i < l.length) (a d : α) :
    (l.set i a).getD i d = a := by
  rw [List.getD_eq_getElem?_getD, List.getElem?_set_self h]
  rfl

theorem recompileStep_getD_ne (env : Env) (name : String) (i k : Nat) (s : CacheState)
    (hik : i ≠ k) :
    (recompileStep env name i s).m_vs.getD k default = s.m_vs.getD k default ∧
      (recompileStep env name i s).m_ps.getD k default = s.m_ps.getD k default := by
  simp only [recompileStep]
  split
  · exact ⟨getD_set_ne hik _ _, getD_set_ne hik _ _⟩
  · exact ⟨rfl, rfl⟩

theorem recompileStep_getD_self (env : Env) (name : String) (i : Nat) (s : CacheState)
    (hi : i < s.m_items.length) (hvs : s.m_vs.length = s.m_items.length)
    (hps : s.m_ps.length = s.m_items.length) :
    (recompileStep env name i s).m_vs.getD i default =
      recompiledVS env name (s.m_items.getD i default) (s.m_vs.getD i default) ∧
      (recompileStep env name i s).m_ps.getD i default =
        recompiledPS env name (s.m_items.getD i default) (s.m_ps.getD i default) := by
  have hivs : i < s.m_vs.length := by omega
  have hips : i < s.m_ps.length := by omega
  by_cases hmatch : (s.m_items.getD i default).Name = name
  · constructor
    · simp only [recompileStep, recompiledVS]
      rw [if_pos hmatch, if_pos hmatch]
      show (s.m_vs.set i _).getD i default = _
      rw [getD_set_self hivs]
      by_cases helems : 0 < (env.payload (s.m_items.getD i default).Data).VSInputElements
      · simp only [if_pos helems]
      · simp only [if_neg helems]
    · simp only [recompileStep, recompiledPS]
      rw [if_pos hmatch, if_pos hmatch]
      show (s.m_ps.set i _).getD i default = _
      rw [getD_set_self hips]
  · simp only [recompileStep, recompiledVS, recompiledPS]
    rw [if_neg hmatch, if_neg hmatch, if_neg hmatch]
    exact ⟨rfl, rfl⟩

theorem recompileLoop_frame (env : Env) (name : String) :
    ∀ (fuel i : Nat) (s : CacheState),
      (recompileLoop env name fuel i s).m_items = s.m_items ∧
        (recompileLoop env name fuel i s).m_vs.length = s.m_vs.length ∧
        (recompileLoop env name fuel i s).m_ps.length = s.m_ps.length ∧
        (recompileLoop env name fuel i s).destroyed = s.destroyed ∧
        (recompileLoop env name fuel i s).nextId = s.nextId
  | 0, _, _ => ⟨rfl, rfl, rfl, rfl, rfl⟩
  | fuel + 1, i, s => by
      by_cases hi : i < s.m_items.length
      · rw [recompileLoop, if_pos hi]
        have hrec := recompileLoop_frame env name fuel (i + 1) (recompileStep env name i s)
        exact ⟨hrec.1.trans (recompileStep_m_items env name i s),
          hrec.2.1.trans (recompileStep_m_vs_length env name i s),
          hrec.2.2.1.trans (recompileStep_m_ps_length env name i s),
          hrec.2.2.2.1.trans (recompileStep_destroyed env name i s),
          hrec.2.2.2.2.trans (recompileStep_nextId env name i s)⟩
      · rw [recompileLoop, if_neg hi]
        exact ⟨rfl, rfl, rfl, rfl, rfl⟩

theorem recompileLoop_getD_lt (env : Env) (name : String) :
    ∀ (fuel i : Nat) (s : CacheState) (k : Nat), k < i →
      (recompileLoop env name fuel i s).m_vs.getD k default = s.m_vs.getD k default ∧
        (recompileLoop env name fuel i s).m_ps.getD k default = s.m_ps.getD k default
  | 0, _, _, _, _ => ⟨rfl, rfl⟩
  | fuel + 1, i, s, k, hk => by
      by_cases hi : i < s.m_items.length
      · rw [recompileLoop, if_pos hi]
        have hstep := recompileStep_getD_ne env name i k s (by omega)
        have hrec :=
          recompileLoop_getD_lt env name fuel (i + 1) (recompileStep env name i s) k (by omega)
        exact ⟨hrec.1.trans hstep.1, hrec.2.trans hstep.2⟩
      · rw [recompileLoop, if_neg hi]
        exact ⟨rfl, rfl⟩

theorem recompileLoop_getD_ge (env : Env) (name : String) :
    ∀ (fuel i : Nat) (s : CacheState) (k : Nat), i ≤ k → k < s.m_items.length →
      s.m_items.length - i ≤ fuel →
      s.m_vs.length = s.m_items.length → s.m_ps.length = s.m_items.length →
      (recompileLoop env name fuel i s).m_vs.getD k default =
          recompiledVS env name (s.m_items.getD k default) (s.m_vs.getD k default) ∧
        (recompileLoop env name fuel i s).m_ps.getD k default =
          recompiledPS env name (s.m_items.getD k default) (s.m_ps.getD k default)
  | 0, i, s, k, hik, hk, hfuel, _, _ => absurd hfuel (by omega)
  | fuel + 1, i, s, k, hik, hk, hfuel, hvs, hps => by
      have hi : i < s.m_items.length := by omega
      rw [recompileLoop, if_pos hi]
      have hitems1 : (recompileStep env name i s).m_items = s.m_items :=
        recompileStep_m_items env name i s
      by_cases hki : k = i
      · subst hki
        have h1 := recompileLoop_getD_lt env name fuel (k + 1) (recompileStep env name k s) k
          (by omega)
        have h2 := recompileStep_getD_self env name k s hi hvs hps
        exact ⟨h1.1.trans h2.1, h1.2.trans h2.2⟩
      · have hrec := recompileLoop_getD_ge env name fuel (i + 1) (recompileStep env name i s) k
          (by omega) (by rw [hitems1]; exact hk)
          (by rw [hitems1]; omega)
          (by rw [hitems1, recompileStep_m_vs_length]; exact hvs)
          (by rw [hitems1, recompileStep_m_ps_length]; exact hps)
        have hne := recompileStep_getD_ne env name i k s (fun hc => hki hc.symm)
        rw [hitems1, hne.1, hne.2] at hrec
        exact hrec

theorem recompileStep_msgs_filter (env : Env) (name : String) (i : Nat) (s : CacheState)
    (g : String) (hg : g ≠ name) :
    (recompileStep env name i s).msgs.filter (fun m => m.group = g) =
      s.msgs.filter (fun m => m.group = g) := by
  by_cases hmatch : (s.m_items.getD i default).Name = name
  · rw [recompileStep_msgs_of_match env name i s hmatch]
    split
    · exact msgAdd_filter_other _ _ _ _ hg s.msgs
    · exact clearGroup_filter_other _ _ hg s.msgs
  · simp only [recompileStep]
    rw [if_neg hmatch]

theorem recompileLoop_msgs_filter (env : Env) (name g : String) (hg : g ≠ name) :
    ∀ (fuel i : Nat) (s : CacheState),
      (recompileLoop env name fuel i s).msgs.filter (fun m => m.group = g) =
        s.msgs.filter (fun m => m.group = g)
  | 0, _, _ => rfl
  | fuel + 1, i, s => by
      by_cases hi : i < s.m_items.length
      · rw [recompileLoop, if_pos hi]
        exact (recompileLoop_msgs_filter env name g hg fuel (i + 1)
          (recompileStep env name i s)).trans (recompileStep_msgs_filter env name i s g hg)
      · rw [recompileLoop, if_neg hi]

/-- C5: Recompile with a given name leaves the snapshot (identities and
positions), the destruction log and the allocation counter untouched and
keeps the lengths of both shader sequences; at every cache index the new
vertex and pixel objects are exactly the in-place recompilation of the old
ones when the item name matches (same heap object, input layout bound only
when the pass declares input elements, sources reloaded through the project
reader) and are exactly the old objects when the name does not match; and the
diagnostics entries of every other group are preserved. -/
theorem recompile_by_name (env : Env) (name : String) (s : CacheState)
    (hvs : s.m_vs.length = s.m_items.length) (hps : s.m_ps.length = s.m_items.length) :
    (Recompile env name s).m_items = s.m_items ∧
      (Recompile env name s).m_vs.length = s.m_vs.length ∧
      (Recompile env name s).m_ps.length = s.m_ps.length ∧
      (Recompile env name s).destroyed = s.destroyed ∧
      (Recompile env name s).nextId = s.nextId ∧
      (∀ k, k < s.m_items.length →
        (Recompile env name s).m_vs.getD k default =
            recompiledVS env name (s.m_items.getD k default) (s.m_vs.getD k default) ∧
          (Recompile env name s).m_ps.getD k default =
            recompiledPS env name (s.m_items.getD k default) (s.m_ps.getD k default)) ∧
      (∀ it v, (recompiledVS env name it v).objId = v.objId ∧
        (recompiledPS env name it v).objId = v.objId) ∧
      (∀ g, g ≠ name →
        (Recompile env name s).msgs.filter (fun m => m.group = g) =
          s.msgs.filter (fun m => m.group = g)) := by
  have hframe := recompileLoop_frame env name s.m_items.length 0 s
  refine ⟨hframe.1, hframe.2.1, hframe.2.2.1, hframe.2.2.2.1, hframe.2.2.2.2, ?_, ?_, ?_⟩
  · intro k hk
    exact recompileLoop_getD_ge env name s.m_items.length 0 s k (by omega) hk (by omega) hvs hps
  · intro it v
    constructor
    · simp only [recompiledVS]
      split
      · rfl
      · rfl
    · simp only [recompiledPS]
      split
      · rfl
      · rfl
  · intro g hg
    exact recompileLoop_msgs_filter env name g hg s.m_items.length 0 s

/-- Closed instance of recompile_by_name: recompiling the name 1 in a cache
holding items named 1 and 2 replaces the shader objects of item 1 in place
(same object identities 101 and 201, layout rebound, source reloaded) and
leaves the objects of item 2 untouched. -/
theorem recompile_by_name_witness :
    (demoCache [1, 2]).m_vs.length = (demoCache [1, 2]).m_items.length ∧
      (Recompile (demoEnv (fun _ _ => true) (fun _ => default)) "1"
          (demoCache [1, 2])).m_items = (demoCache [1, 2]).m_items ∧
      (Recompile (demoEnv (fun _ _ => true) (fun _ => default)) "1"
          (demoCache [1, 2])).m_vs.getD 0 default =
        ⟨101, some 77, some ("source", "main"), true⟩ ∧
      (Recompile (demoEnv (fun _ _ => true) (fun _ => default)) "1"
          (demoCache [1, 2])).m_vs.getD 1 default = ⟨102, none, none, true⟩ :=
  ⟨rfl,
    (recompile_by_name (demoEnv (fun _ _ => true) (fun _ => default)) "1"
        (demoCache [1, 2]) rfl rfl).1,
    (((recompile_by_name (demoEnv (fun _ _ => true) (fun _ => default)) "1"
              (demoCache [1, 2]) rfl rfl).2.2.2.2.2.1 0 (by decide)).1).trans (by decide),
    (((recompile_by_name (demoEnv (fun _ _ => true) (fun _ => default)) "1"
              (demoCache [1, 2]) rfl rfl).2.2.2.2.2.1 1 (by decide)).1).trans (by decide)⟩


/-! Invariant preservation through the reconciler phases. -/

theorem ext_length_le_of_subset {ext : List PipelineItem} {s : CacheState}
    (hext : (ext.map (·.Data)).Nodup)
    (hsub : ∀ e ∈ ext, e.Data ∈ s.m_items.map (·.Data)) :
    ext.length ≤ s.m_items.length := by
  have hss : ext.map (·.Data) ⊆ s.m_items.map (·.Data) := by
    intro a ha
    obtain ⟨e, he, rfl⟩ := List.mem_map.mp ha
    exact hsub e he
  have := (hext.subperm hss).length_le
  simpa using this

theorem insertLoop_inv (env : Env) (ext : List PipelineItem)
    (hext : (ext.map (·.Data)).Nodup) :
    ∀ (pending processed : List PipelineItem) (s : CacheState),
      ext = processed ++ pending →
      (∀ e ∈ processed, e.Data ∈ s.m_items.map (·.Data)) →
      CacheInvariant s →
      CacheInvariant (insertLoop env processed.length pending s) ∧
        ∀ e ∈ ext, e.Data ∈ (insertLoop env processed.length pending s).m_items.map (·.Data)
  | [], processed, s, hsplit, hproc, hinv => by
      rw [List.append_nil] at hsplit
      subst hsplit
      exact ⟨hinv, hproc⟩
  | e :: rest, processed, s, hsplit, hproc, hinv => by
      rw [insertLoop]
      by_cases hfound : (s.m_items.any fun it => decide (it.Data = e.Data)) = true
      · rw [if_pos hfound]
        have hmem : e.Data ∈ s.m_items.map (·.Data) := by
          obtain ⟨it, hit, hd⟩ := List.any_eq_true.mp hfound
          exact List.mem_map.mpr ⟨it, hit, of_decide_eq_true hd⟩
        have hres := insertLoop_inv env ext hext rest (processed ++ [e]) s
          (by rw [hsplit]; simp)
          (fun x hx => by
            rcases List.mem_append.mp hx with h | h
            · exact hproc x h
            · rw [List.mem_singleton.mp h]
              exact hmem)
          hinv
        simpa [List.length_append] using hres
      · rw [if_neg hfound]
        have hnf : e.Data ∉ s.m_items.map (·.Data) := by
          intro hc
          obtain ⟨it, hit, hd⟩ := List.mem_map.mp hc
          exact hfound (List.any_eq_true.mpr ⟨it, hit, by simp [hd]⟩)
        have hprocnodup : (processed.map (·.Data)).Nodup := by
          rw [hsplit, List.map_append] at hext
          exact hext.of_append_left
        have hsubproc : processed.map (·.Data) ⊆ s.m_items.map (·.Data) := by
          intro a ha
          obtain ⟨x, hx, rfl⟩ := List.mem_map.mp ha
          exact hproc x hx
        have hlen : processed.length ≤ s.m_items.length := by
          have := (hprocnodup.subperm hsubproc).length_le
          simpa using this
        obtain ⟨hvs, hps, hnd⟩ := hinv
        have hinv' : CacheInvariant (cacheInsertStep env e processed.length s) := by
          refine ⟨?_, ?_, ?_⟩
          · rw [cacheInsertStep_m_vs, cacheInsertStep_m_items, length_insertIdx_eq,
              length_insertIdx_eq, if_pos (by omega), if_pos (by omega)]
            omega
          · rw [cacheInsertStep_m_ps, cacheInsertStep_m_items, length_insertIdx_eq,
              length_insertIdx_eq, if_pos (by omega), if_pos (by omega)]
            omega
          · rw [cacheInsertStep_m_items, map_insertIdx]
            exact nodup_insertIdx_of_not_mem hnd hnf _
        have hproc' : ∀ x ∈ processed ++ [e],
            x.Data ∈ (cacheInsertStep env e processed.length s).m_items.map (·.Data) := by
          intro x hx
          rw [cacheInsertStep_m_items, map_insertIdx]
          rcases List.mem_append.mp hx with h | h
          · exact mem_insertIdx_of_mem (hproc x h) _ _
          · rw [List.mem_singleton.mp h]
            exact (List.mem_insertIdx (by simpa using hlen)).mpr (Or.inl rfl)
        have hres := insertLoop_inv env ext hext rest (processed ++ [e])
          (cacheInsertStep env e processed.length s) (by rw [hsplit]; simp) hproc' hinv'
        simpa [List.length_append] using hres


theorem removeLoop_inv (ext : List PipelineItem) :
    ∀ (fuel i : Nat) (s : CacheState),
      CacheInvariant s →
      (∀ e ∈ ext, e.Data ∈ s.m_items.map (·.Data)) →
      CacheInvariant (removeLoop ext fuel i s) ∧
        ∀ e ∈ ext, e.Data ∈ (removeLoop ext fuel i s).m_items.map (·.Data)
  | 0, _, _, hinv, hsub => ⟨hinv, hsub⟩
  | fuel + 1, i, s, hinv, hsub => by
      rw [removeLoop]
      by_cases hi : i < s.m_items.length
      · rw [if_pos hi]
        by_cases hfound :
            (ext.any fun e => decide (e.Data = (s.m_items.getD i default).Data)) = true
        · rw [if_pos hfound]
          exact removeLoop_inv ext fuel (i + 1) s hinv hsub
        · rw [if_neg hfound]
          have hnf : ∀ e ∈ ext, e.Data ≠ (s.m_items.getD i default).Data := by
            intro e he hc
            exact hfound (List.any_eq_true.mpr ⟨e, he, by simp [hc]⟩)
          obtain ⟨hvs, hps, hnd⟩ := hinv
          have hinv' : CacheInvariant (cacheRemoveStep i s) := by
            refine ⟨?_, ?_, ?_⟩
            · rw [cacheRemoveStep_m_vs, cacheRemoveStep_m_items, List.length_eraseIdx,
                List.length_eraseIdx, if_pos (by omega), if_pos (by omega)]
              omega
            · rw [cacheRemoveStep_m_ps, cacheRemoveStep_m_items, List.length_eraseIdx,
                List.length_eraseIdx, if_pos (by omega), if_pos (by omega)]
              omega
            · rw [cacheRemoveStep_m_items, map_eraseIdx]
              exact hnd.eraseIdx i
          have hsub' : ∀ e ∈ ext,
              e.Data ∈ (cacheRemoveStep i s).m_items.map (·.Data) := by
            intro e he
            rw [cacheRemoveStep_m_items, map_eraseIdx]
            have hidat : i < (s.m_items.map (·.Data)).length := by
              rw [List.length_map]
              exact hi
            apply mem_eraseIdx_of_ne hidat (hsub e he)
            have hget : (s.m_items.map (·.Data))[i] = (s.m_items.getD i default).Data := by
              rw [List.getElem_map, getD_eq_getElem_of_lt hi]
            rw [hget]
            exact hnf e he
          exact removeLoop_inv ext fuel (i + 1) (cacheRemoveStep i s) hinv' hsub'
      · rw [if_neg hi]
        exact ⟨hinv, hsub⟩


theorem length_erase_insert {α : Type _} (l : List α) (i dest : Nat) (a : α)
    (hi : i < l.length) (hdest : dest ≤ l.length - 1) :
    ((l.eraseIdx i).insertIdx dest a).length = l.length := by
  rw [length_insertIdx_eq, List.length_eraseIdx, if_pos hi, if_pos hdest]
  omega

theorem moveInner_inv (ext : List PipelineItem) (hext : (ext.map (·.Data)).Nodup) (i : Nat) :
    ∀ (rem : List PipelineItem) (j : Nat) (s : CacheState),
      j + rem.length = ext.length →
      CacheInvariant s →
      (∀ e ∈ ext, e.Data ∈ s.m_items.map (·.Data)) →
      i < s.m_items.length →
      CacheInvariant (moveInner i j rem s) ∧
        (∀ e ∈ ext, e.Data ∈ (moveInner i j rem s).m_items.map (·.Data)) ∧
        (moveInner i j rem s).m_items.length = s.m_items.length
  | [], _, s, _, hinv, hsub, _ => ⟨hinv, hsub, rfl⟩
  | tgt :: rest, j, s, hj, hinv, hsub, hi => by
      rw [moveInner]
      by_cases hguard : tgt.Data = (s.m_items.getD i default).Data
      · rw [if_pos hguard]
        obtain ⟨hvs, hps, hnd⟩ := hinv
        have hj' : j < ext.length := by
          simp only [List.length_cons] at hj
          omega
        have hextlen : ext.length ≤ s.m_items.length :=
          ext_length_le_of_subset hext (by exact hsub)
        have hdest : (if i < j then j - 1 else j) ≤ s.m_items.length - 1 := by
          by_cases hij : i < j <;> simp only [if_pos, if_neg, hij, ite_true, ite_false] <;> omega
        have hidat : i < (s.m_items.map (·.Data)).length := by
          rw [List.length_map]
          exact hi
        have hgd : (s.m_items.map (·.Data))[i] = tgt.Data := by
          rw [List.getElem_map, ← getD_eq_getElem_of_lt hi] at *
          exact hguard.symm
        have hperm :
            ((moveStep tgt i j s).m_items.map (·.Data)).Perm (s.m_items.map (·.Data)) := by
          rw [moveStep_m_items, map_insertIdx, map_eraseIdx]
          have h1 := List.perm_insertIdx tgt.Data ((s.m_items.map (·.Data)).eraseIdx i)
            (n := if i < j then j - 1 else j)
            (by rw [List.length_eraseIdx, if_pos hidat, List.length_map]; omega)
          have h2 := perm_cons_eraseIdx hidat
          rw [hgd] at h2
          exact h1.trans h2.symm
        have hilen : i < s.m_vs.length := by omega
        have hilenp : i < s.m_ps.length := by omega
        have hlitems : (moveStep tgt i j s).m_items.length = s.m_items.length := by
          rw [moveStep_m_items]
          exact length_erase_insert _ _ _ _ hi hdest
        have hinv' : CacheInvariant (moveStep tgt i j s) := by
          refine ⟨?_, ?_, ?_⟩
          · rw [moveStep_m_vs, hlitems, length_erase_insert _ _ _ _ hilen (by omega)]
            exact hvs
          · rw [moveStep_m_ps, hlitems, length_erase_insert _ _ _ _ hilenp (by omega)]
            exact hps
          · exact (hperm.nodup_iff).mpr hnd
        have hsub' : ∀ e ∈ ext, e.Data ∈ (moveStep tgt i j s).m_items.map (·.Data) :=
          fun e he => hperm.mem_iff.mpr (hsub e he)
        have hres := moveInner_inv ext hext i rest (j + 1) (moveStep tgt i j s)
          (by simp only [List.length_cons] at hj; omega) hinv' hsub'
          (by rw [hlitems]; exact hi)
        exact ⟨hres.1, hres.2.1, hres.2.2.trans hlitems⟩
      · rw [if_neg hguard]
        exact moveInner_inv ext hext i rest (j + 1) s
          (by simp only [List.length_cons] at hj; omega) hinv hsub hi

theorem moveLoop_inv (env : Env) (ext : List PipelineItem)
    (hext : (ext.map (·.Data)).Nodup) :
    ∀ (fuel i : Nat) (s : CacheState),
      CacheInvariant s →
      (∀ e ∈ ext, e.Data ∈ s.m_items.map (·.Data)) →
      CacheInvariant (moveLoop env ext fuel i s) ∧
        ∀ e ∈ ext, e.Data ∈ (moveLoop env ext fuel i s).m_items.map (·.Data)
  | 0, _, _, hinv, hsub => ⟨hinv, hsub⟩
  | fuel + 1, i, s, hinv, hsub => by
      rw [moveLoop]
      by_cases hi : i < s.m_items.length
      · rw [if_pos hi]
        by_cases halign : (extReadAt env ext i).Data = (s.m_items.getD i default).Data
        · rw [if_pos halign]
          exact moveLoop_inv env ext hext fuel (i + 1) s hinv hsub
        · rw [if_neg halign]
          have hres := moveInner_inv ext hext i ext 0 s (by simp) hinv hsub hi
          exact moveLoop_inv env ext hext fuel (i + 1) (moveInner i 0 ext s) hres.1 hres.2.1
      · rw [if_neg hi]
        exact ⟨hinv, hsub⟩

theorem fullScan_inv (env : Env) (ext : List PipelineItem) (s : CacheState)
    (hinv : CacheInvariant s) (hext : (ext.map (·.Data)).Nodup) :
    CacheInvariant (fullScan env ext s) := by
  have hins := insertLoop_inv env ext hext ext [] s rfl (by simp) hinv
  have hrem := removeLoop_inv ext (insertLoop env 0 ext s).m_items.length 0
    (insertLoop env 0 ext s) hins.1 hins.2
  have hmov := moveLoop_inv env ext hext
    (removeLoop ext (insertLoop env 0 ext s).m_items.length 0
      (insertLoop env 0 ext s)).m_items.length 0
    (removeLoop ext (insertLoop env 0 ext s).m_items.length 0 (insertLoop env 0 ext s))
    hrem.1 hrem.2
  exact hmov.1

theorem m_cache_inv (env : Env) (ext : List PipelineItem) (s : CacheState)
    (hinv : CacheInvariant s) (hext : (ext.map (·.Data)).Nodup) :
    CacheInvariant (m_cache env ext s) := by
  rw [m_cache]
  split
  · split
    · exact fullScan_inv env ext { s with elapsed := 0 } hinv hext
    · exact hinv
  · exact fullScan_inv env ext s hinv hext

/-- C8: the structural cache invariant — the three cache sequences have equal
length and no two cache entries share an identity — is preserved by every
public operation: the per-frame reconciler (hence by the frame render step,
whose cache mutation is exactly the reconciler), recompile-by-name and the
cache flush, provided the externally owned list carries pairwise distinct
identities. -/
theorem cache_invariants (env : Env) (slots : Nat) (ext : List PipelineItem)
    (name : String) (w h : Int) (s : CacheState) (rs : RenderEngineState)
    (hinv : CacheInvariant s) (hrs : CacheInvariant rs.cache)
    (hext : (ext.map (·.Data)).Nodup) :
    CacheInvariant (m_cache env ext s) ∧
      CacheInvariant ((Render env slots ext w h rs).1.cache) ∧
      CacheInvariant (Recompile env name s) ∧
      CacheInvariant (FlushCache s) := by
  refine ⟨m_cache_inv env ext s hinv hext, ?_, ?_, ?_⟩
  · have hc : (Render env slots ext w h rs).1.cache = m_cache env ext rs.cache := by
      rw [Render]
      by_cases hb : rs.m_lastSize.1 ≠ w ∨ rs.m_lastSize.2 ≠ h
      · rw [if_pos hb]
      · rw [if_neg hb]
    rw [hc]
    exact m_cache_inv env ext rs.cache hrs hext
  · have hframe := recompileLoop_frame env name s.m_items.length 0 s
    obtain ⟨hvs, hps, hnd⟩ := hinv
    refine ⟨?_, ?_, ?_⟩
    · rw [Recompile] at *
      rw [hframe.2.1, hframe.1]
      exact hvs
    · rw [Recompile] at *
      rw [hframe.2.2.1, hframe.1]
      exact hps
    · rw [Recompile] at *
      rw [hframe.1]
      exact hnd
  · exact ⟨rfl, rfl, List.nodup_nil⟩

/-- Closed instance of cache_invariants: starting from a valid two-entry
cache and a distinct three-item external list, all four operations preserve
the invariant. -/
theorem cache_invariants_witness :
    CacheInvariant (demoCache [1, 2]) ∧
      ((demoItems [3, 1, 2]).map (·.Data)).Nodup ∧
      CacheInvariant (m_cache (demoEnv (fun _ _ => true) (fun _ => default))
        (demoItems [3, 1, 2]) (demoCache [1, 2])) ∧
      CacheInvariant (Recompile (demoEnv (fun _ _ => true) (fun _ => default)) "1"
        (demoCache [1, 2])) ∧
      CacheInvariant (FlushCache (demoCache [1, 2])) := by
  have hres := cache_invariants (demoEnv (fun _ _ => true) (fun _ => default)) 4
    (demoItems [3, 1, 2]) "1" 10 5 (demoCache [1, 2])
    ⟨demoCache [1, 2], (0, 0), 0, 0⟩ (by decide) (by decide) (by decide)
  exact ⟨by decide, by decide, hres.1, hres.2.2.1, hres.2.2.2⟩

end ed
